import Mathlib

/-
Verification of the browser-side support layer: the JSON request helper
`requestJson` with its `api` operation catalog, the localStorage-backed
authentication accessors, and the HTML-escaping utility.

JavaScript strings are modelled as Lean `String` (for the request layer)
or `List Char` (for the character-level escaping function); JSON values as
the inductive `JsValue`.  Browser builtins (`JSON.parse`, `JSON.stringify`,
`encodeURIComponent`, the network) are parameters of the embedded
functions, since they are supplied by the environment, not by this
repository.  Machine-level concerns do not arise: the code manipulates
only strings, booleans and small structures.
-/

namespace Alaa

/-- JSON-representable JavaScript values, as produced by a successful
`JSON.parse` and consumed by the request helper. -/
inductive JsValue where
  | jnull
  | jbool (b : Bool)
  | jnum (n : Int)
  | jstr (s : String)
  | jarr (elems : List JsValue)
  | jobj (fields : List (String × JsValue))

/-- JavaScript truthiness of a JSON value: `null`, `false`, `0` and the
empty string are falsy; every array and object (even empty) is truthy. -/
def jsTruthy : JsValue → Bool
  | .jnull => false
  | .jbool b => b
  | .jnum n => n != 0
  | .jstr s => s != ""
  | .jarr _ => true
  | .jobj _ => true

mutual

/-- JavaScript `String(v)` coercion of a JSON value, as applied by the
`Error` constructor to a non-string message. -/
def jsToString : JsValue → String
  | .jnull => "null"
  | .jbool true => "true"
  | .jbool false => "false"
  | .jnum n => toString n
  | .jstr s => s
  | .jarr elems => jsToStringArr elems
  | .jobj _ => "[object Object]"

/-- Array.prototype.toString: elements joined with commas, with `null`
elements rendered as the empty string. -/
def jsToStringArr : List JsValue → String
  | [] => ""
  | [.jnull] => ""
  | [v] => jsToString v
  | .jnull :: rest => "," ++ jsToStringArr rest
  | v :: rest => jsToString v ++ "," ++ jsToStringArr rest

end

/-- First-match lookup in an object's field list (JSON objects produced by
`JSON.parse` have distinct keys, so the access discipline is immaterial). -/
def lookupField : List (String × JsValue) → String → Option JsValue
  | [], _ => none
  | (k, v) :: rest, key => if k = key then some v else lookupField rest key

/-- JavaScript property access `v.key`: a field of an object, `undefined`
(here `none`) on everything else. -/
def getField : JsValue → String → Option JsValue
  | .jobj fields, key => lookupField fields key
  | _, _ => none

/-- The transport-level reply visible to `requestJson`: the numeric status
code and the response body read as text. -/
structure Response where
  status : Nat
  text : String

/-- The `ok` accessor of a fetch `Response`: status in the 2xx range. -/
def Response.ok (r : Response) : Bool :=
  decide (200 ≤ r.status) && decide (r.status ≤ 299)

/-- The error thrown by `requestJson` on a non-2xx response: the `Error`
message plus the `status` and `data` fields attached to the object. -/
structure JsError where
  message : String
  status : Nat
  data : JsValue

/-- Lines 8-14 of the helper: `data = text ? JSON.parse(text) : {}` inside
`try`, with the `catch` branch setting `data = { raw: text }`.  An empty
body never reaches the parser and decodes to the empty object; a parse
failure (`parse text = none`) yields the raw-text fallback object. -/
def decodeBody (parse : String → Option JsValue) (text : String) : JsValue :=
  if text = "" then .jobj []
  else
    match parse text with
    | some v => v
    | none => .jobj [("raw", .jstr text)]

/-- Response processing of `requestJson` (lines 8-25): decode the body,
and on `!res.ok` throw an error whose message is
`data && data.error ? data.error : 'HTTP ' + res.status` (the error field
is used only when both the decoded body and the field itself are truthy,
and is coerced to a string by the `Error` constructor), carrying the
status and the decoded body; on a 2xx response return the decoded body. -/
def requestJson (parse : String → Option JsValue) (res : Response) :
    Except JsError JsValue :=
  let data := decodeBody parse res.text
  if !res.ok then
    let msg :=
      if jsTruthy data then
        match getField data "error" with
        | some e => if jsTruthy e then jsToString e else "HTTP " ++ toString res.status
        | none => "HTTP " ++ toString res.status
      else "HTTP " ++ toString res.status
    Except.error { message := msg, status := res.status, data := data }
  else Except.ok data

/-- The server-supplied error field actually used by line 17 of the
helper: the `error` field of the decoded body, provided the body and the
field are both truthy (`data && data.error`). -/
def serverError (data : JsValue) : Option JsValue :=
  if jsTruthy data then
    match getField data "error" with
    | some e => if jsTruthy e then some e else none
    | none => none
  else none

/-- The options argument of `requestJson`: destructured as
`{ method = 'GET', body } = {}`, so both members may be absent. -/
structure RequestOptions where
  method : Option String
  body : Option JsValue

/-- The outbound request handed to `fetch`. -/
structure FetchRequest where
  url : String
  method : String
  headers : List (String × String)
  body : Option String

/-- Lines 2-6 of the helper: the single `fetch` call.  The method defaults
to GET, the content-type header is always attached, and the body is
`body ? JSON.stringify(body) : undefined` - serialized only when the
given body value is truthy, omitted otherwise. -/
def requestJsonFetch (stringify : JsValue → String) (path : String)
    (opts : RequestOptions) : FetchRequest :=
  { url := path
    method := opts.method.getD "GET"
    headers := [("Content-Type", "application/json")]
    body :=
      match opts.body with
      | some b => if jsTruthy b then some (stringify b) else none
      | none => none }

/-- The complete list of network requests one call to `requestJson`
performs: exactly the one `fetch` of lines 2-6: the helper has no retry,
pagination or caching path. -/
def requestJsonRequests (stringify : JsValue → String) (path : String)
    (opts : RequestOptions) : List FetchRequest :=
  [requestJsonFetch stringify path opts]

/-- The single `requestJson` invocation an `api` operation performs:
its path together with its options object. -/
abbrev ApiCall := String × RequestOptions

def api_register (payload : JsValue) : ApiCall :=
  ("/register", { method := some "POST", body := some payload })

def api_login (payload : JsValue) : ApiCall :=
  ("/login", { method := some "POST", body := some payload })

def api_getChallenges : ApiCall :=
  ("/challenges", { method := none, body := none })

def api_getChallenge (id : String) : ApiCall :=
  ("/challenges/" ++ id, { method := none, body := none })

def api_addChallenge (payload : JsValue) : ApiCall :=
  ("/add_challenge", { method := some "POST", body := some payload })

def api_updateChallenge (id : String) (payload : JsValue) : ApiCall :=
  ("/challenges/" ++ id, { method := some "PUT", body := some payload })

def api_deleteChallenge (id : String) (payload : JsValue) : ApiCall :=
  ("/challenges/" ++ id, { method := some "DELETE", body := some payload })

def api_submit (payload : JsValue) : ApiCall :=
  ("/submit", { method := some "POST", body := some payload })

def api_getSubmissions (enc : String → String) (username : String) : ApiCall :=
  ("/submissions/" ++ enc username, { method := none, body := none })

def api_teacherListSubmissions (payload : JsValue) : ApiCall :=
  ("/teacher/submissions", { method := some "POST", body := some payload })

def api_teacherUpdateSubmission (enc : String → String) (submissionId : String)
    (payload : JsValue) : ApiCall :=
  ("/teacher/submissions/" ++ enc submissionId,
    { method := some "PUT", body := some payload })

def api_addTestCase (challengeId : String) (payload : JsValue) : ApiCall :=
  ("/challenges/" ++ challengeId ++ "/add_test_case",
    { method := some "POST", body := some payload })

def api_deleteTestCase (testCaseId : String) (payload : JsValue) : ApiCall :=
  ("/test_cases/" ++ testCaseId, { method := some "DELETE", body := some payload })

def api_addSolutionTemplate (challengeId : String) (payload : JsValue) : ApiCall :=
  ("/challenges/" ++ challengeId ++ "/add_solution_template",
    { method := some "POST", body := some payload })

def api_deleteSolutionTemplate (templateId : String) (payload : JsValue) : ApiCall :=
  ("/solution_templates/" ++ templateId,
    { method := some "DELETE", body := some payload })

def api_exportChallenge (challengeId : String) : ApiCall :=
  ("/challenges/" ++ challengeId ++ "/export", { method := none, body := none })

def api_copyChallenge (challengeId : String) (payload : JsValue) : ApiCall :=
  ("/challenges/" ++ challengeId ++ "/copy",
    { method := some "POST", body := some payload })

def api_importChallenge (payload : JsValue) : ApiCall :=
  ("/import_challenge", { method := some "POST", body := some payload })

/-- Effective HTTP method of an api call once `requestJson` applies the
GET default. -/
def ApiCall.effMethod (c : ApiCall) : String :=
  c.2.method.getD "GET"

/-- JavaScript `String.prototype.replaceAll` for a one-character pattern:
every occurrence of the pattern character is replaced by the
replacement sequence. -/
def replaceAllChar (pat : Char) (rep : List Char) : List Char → List Char
  | [] => []
  | c :: rest => (if c = pat then rep else [c]) ++ replaceAllChar pat rep rest

/-- The double-quote character. -/
def dquote : Char := Char.ofNat 34

/-- The single-quote character. -/
def squote : Char := Char.ofNat 39

def ampEntity : List Char := ['&', 'a', 'm', 'p', ';']

def ltEntity : List Char := ['&', 'l', 't', ';']

def gtEntity : List Char := ['&', 'g', 't', ';']

def quotEntity : List Char := ['&', 'q', 'u', 'o', 't', ';']

def aposEntity : List Char := ['&', '#', '0', '3', '9', ';']

/-- The five entity sequences the escaping can produce. -/
def entityBlocks : List (List Char) := [ampEntity, ltEntity, gtEntity, quotEntity, aposEntity]

/-- `escapeHtml` on the character sequence of the input string: the five
successive `replaceAll` passes of the source, ampersand first. -/
def escapeHtml (s : List Char) : List Char :=
  replaceAllChar squote aposEntity
    (replaceAllChar dquote quotEntity
      (replaceAllChar '>' gtEntity
        (replaceAllChar '<' ltEntity
          (replaceAllChar '&' ampEntity s))))

/-- The block a single input character contributes to the output of
`escapeHtml`. -/
def escCharBlock (c : Char) : List Char :=
  if c = '&' then ampEntity
  else if c = '<' then ltEntity
  else if c = '>' then gtEntity
  else if c = dquote then quotEntity
  else if c = squote then aposEntity
  else [c]

/-- Body text of the C1 counterexample response: a JSON object whose
`error` field is present but holds the empty string. -/
def cexErrorText : String := "\x7b\"error\":\"\"\x7d"

/-- A parse oracle agreeing with `JSON.parse` on `cexErrorText`. -/
def cexErrorParse : String → Option JsValue :=
  fun t => if t = cexErrorText then some (.jobj [("error", .jstr "")]) else none

/-- A 500 response carrying `cexErrorText` as its body. -/
def cexErrorRes : Response := { status := 500, text := cexErrorText }

/-- A serializer used by the C5 counterexample, agreeing with
`JSON.stringify` on the boolean `false`. -/
def cexStringify : JsValue → String := fun _ => "false"

/-- The message computation of line 17 phrased through `serverError`. -/
lemma requestJson_msg_eq (d : JsValue) (st : Nat) :
    (if jsTruthy d then
      match getField d "error" with
      | some e => if jsTruthy e then jsToString e else "HTTP " ++ toString st
      | none => "HTTP " ++ toString st
     else "HTTP " ++ toString st)
    = (match serverError d with
       | some v => jsToString v
       | none => "HTTP " ++ toString st) := by
  unfold serverError
  cases hjt : jsTruthy d
  · simp
  · simp only [if_true]
    cases hge : getField d "error"
    · simp
    · rename_i e
      cases hje : jsTruthy e <;> simp [hje]

/-- Characterization of `requestJson` on a non-2xx response: it throws the
error built from the truthy server error field (else the HTTP fallback),
the status, and the decoded body. -/
lemma requestJson_not_ok (parse : String → Option JsValue) (res : Response)
    (h : res.ok = false) :
    requestJson parse res = Except.error
      { message := match serverError (decodeBody parse res.text) with
                   | some v => jsToString v
                   | none => "HTTP " ++ toString res.status
        status := res.status
        data := decodeBody parse res.text } := by
  unfold requestJson
  simp only [h, Bool.not_false, if_true, requestJson_msg_eq]

/-- Characterization of `requestJson` on a 2xx response: it returns the
decoded body. -/
lemma requestJson_is_ok (parse : String → Option JsValue) (res : Response)
    (h : res.ok = true) :
    requestJson parse res = Except.ok (decodeBody parse res.text) := by
  unfold requestJson
  rw [h]
  simp

/-- Claim C1, counterexample: on a 500 response whose decoded body has the
`error` field present but equal to the empty string, `requestJson` throws
the fallback message `HTTP 500`, not the (present) server error field,
refuting the claim that presence of the field alone determines the
message. -/
theorem requestJson_error_field_present_cex :
    getField (decodeBody cexErrorParse cexErrorRes.text) "error" =
      some (JsValue.jstr "") ∧
    requestJson cexErrorParse cexErrorRes =
      Except.error { message := "HTTP 500", status := 500,
                     data := JsValue.jobj [("error", JsValue.jstr "")] } ∧
    jsToString (JsValue.jstr "") ≠ "HTTP 500" := by
  refine ⟨rfl, ?_, by decide⟩
  rfl

/-- Claim C1 (amended): on every non-2xx response the thrown error's
message equals the server-supplied `error` field of the decoded body when
the body and that field are both truthy (the field coerced to a string),
and otherwise equals `HTTP <status>`; in particular a present but falsy
`error` field (such as the empty string) falls back to `HTTP <status>`. -/
theorem requestJson_error_message (parse : String → Option JsValue)
    (res : Response) (h : res.ok = false) :
    ∃ e, requestJson parse res = Except.error e ∧
      e.message = (match serverError (decodeBody parse res.text) with
                   | some v => jsToString v
                   | none => "HTTP " ++ toString res.status) :=
  ⟨_, requestJson_not_ok parse res h, rfl⟩

/-- Witness for claim C1: a 404 response with empty body throws an error
whose message is `HTTP 404`. -/
theorem requestJson_error_message_witness :
    ∃ e, requestJson (fun _ => none) { status := 404, text := "" } =
        Except.error e ∧ e.message = "HTTP 404" :=
  requestJson_error_message (fun _ => none) { status := 404, text := "" } rfl

/-- Claim C2: a non-empty response body that is not valid JSON decodes to
the object with a single `raw` field holding the original text, and a 2xx
call returns exactly that object. -/
theorem requestJson_invalid_json (parse : String → Option JsValue)
    (res : Response) (ht : res.text ≠ "") (hp : parse res.text = none)
    (hok : res.ok = true) :
    decodeBody parse res.text = JsValue.jobj [("raw", JsValue.jstr res.text)] ∧
    requestJson parse res =
      Except.ok (JsValue.jobj [("raw", JsValue.jstr res.text)]) := by
  have hd : decodeBody parse res.text =
      JsValue.jobj [("raw", JsValue.jstr res.text)] := by
    unfold decodeBody
    rw [if_neg ht, hp]
  exact ⟨hd, by rw [requestJson_is_ok parse res hok, hd]⟩

/-- Witness for claim C2: the body text `x` is not valid JSON and a 200
response carrying it returns the raw-text fallback object. -/
theorem requestJson_invalid_json_witness :
    decodeBody (fun _ => none) "x" = JsValue.jobj [("raw", JsValue.jstr "x")] ∧
    requestJson (fun _ => none) { status := 200, text := "x" } =
      Except.ok (JsValue.jobj [("raw", JsValue.jstr "x")]) :=
  requestJson_invalid_json (fun _ => none) { status := 200, text := "x" }
    (by decide) rfl rfl

/-- Claim C3: a 2xx response with empty body text returns the empty
object. -/
theorem requestJson_empty_body (parse : String → Option JsValue)
    (res : Response) (ht : res.text = "") (hok : res.ok = true) :
    requestJson parse res = Except.ok (JsValue.jobj []) := by
  have hd : decodeBody parse res.text = JsValue.jobj [] := by
    unfold decodeBody
    rw [ht, if_pos rfl]
  rw [requestJson_is_ok parse res hok, hd]

/-- Witness for claim C3: a 200 response with empty body returns the
empty object. -/
theorem requestJson_empty_body_witness :
    requestJson (fun _ => none) { status := 200, text := "" } =
      Except.ok (JsValue.jobj []) :=
  requestJson_empty_body (fun _ => none) { status := 200, text := "" } rfl rfl

/-- Claim C6: every error thrown by `requestJson` on a non-2xx response
carries the numeric status code in its `status` field and the decoded
response body in its `data` field. -/
theorem requestJson_error_diagnostics (parse : String → Option JsValue)
    (res : Response) (h : res.ok = false) :
    ∃ e, requestJson parse res = Except.error e ∧
      e.status = res.status ∧ e.data = decodeBody parse res.text :=
  ⟨_, requestJson_not_ok parse res h, rfl, rfl⟩

/-- Witness for claim C6: the error thrown on a 500 response with empty
body carries status 500 and the empty decoded object. -/
theorem requestJson_error_diagnostics_witness :
    ∃ e, requestJson (fun _ => none) { status := 500, text := "" } =
        Except.error e ∧ e.status = 500 ∧ e.data = JsValue.jobj [] :=
  requestJson_error_diagnostics (fun _ => none) { status := 500, text := "" } rfl

/-- Claim C5, counterexample: a call whose options carry the present body
`false` issues its fetch with no body at all, although the serialization
of that body exists (`JSON.stringify(false) = "false"`), refuting the
claim that every present body is serialized into the request. -/
theorem requestJsonFetch_falsy_body_cex :
    (requestJsonFetch cexStringify "/x"
      { method := none, body := some (JsValue.jbool false) }).body = none ∧
    (requestJsonFetch cexStringify "/x"
      { method := none, body := some (JsValue.jbool false) }).body ≠
      some (cexStringify (JsValue.jbool false)) := by
  exact ⟨rfl, fun h => Option.noConfusion h⟩

/-- Claim C5 (amended): every call of `requestJson` issues exactly one
fetch, to the given path, with the given method (GET when none is given)
and a `Content-Type: application/json` header; the body is JSON-serialized
when a body is present and truthy, and absent when the body is absent or
falsy (`null`, `false`, `0` or the empty string). -/
theorem requestJsonFetch_spec (stringify : JsValue → String) (path : String)
    (opts : RequestOptions) :
    (requestJsonRequests stringify path opts).length = 1 ∧
    (requestJsonFetch stringify path opts).url = path ∧
    (requestJsonFetch stringify path opts).method = opts.method.getD "GET" ∧
    (requestJsonFetch stringify path opts).headers =
      [("Content-Type", "application/json")] ∧
    (∀ b, opts.body = some b → jsTruthy b = true →
      (requestJsonFetch stringify path opts).body = some (stringify b)) ∧
    (∀ b, opts.body = some b → jsTruthy b = false →
      (requestJsonFetch stringify path opts).body = none) ∧
    (opts.body = none → (requestJsonFetch stringify path opts).body = none) := by
  refine ⟨rfl, rfl, rfl, rfl, ?_, ?_, ?_⟩
  · intro b hb hjt
    simp [requestJsonFetch, hb, hjt]
  · intro b hb hjt
    simp [requestJsonFetch, hb, hjt]
  · intro hb
    simp [requestJsonFetch, hb]

/-- Witness for claim C5: a truthy body is serialized, a falsy body and
an absent body are both omitted. -/
theorem requestJsonFetch_spec_witness :
    (requestJsonFetch (fun _ => "1") "/p"
      { method := some "POST", body := some (JsValue.jnum 1) }).body = some "1" ∧
    (requestJsonFetch (fun _ => "1") "/p"
      { method := none, body := some (JsValue.jbool false) }).body = none ∧
    (requestJsonFetch (fun _ => "1") "/p"
      { method := none, body := none }).body = none :=
  ⟨(requestJsonFetch_spec (fun _ => "1") "/p"
      { method := some "POST", body := some (JsValue.jnum 1) }).2.2.2.2.1
        (JsValue.jnum 1) rfl rfl,
   (requestJsonFetch_spec (fun _ => "1") "/p"
      { method := none, body := some (JsValue.jbool false) }).2.2.2.2.2.1
        (JsValue.jbool false) rfl rfl,
   (requestJsonFetch_spec (fun _ => "1") "/p"
      { method := none, body := none }).2.2.2.2.2.2 rfl⟩

/-- Claim C7: every named operation of the `api` object maps to exactly
the path and effective HTTP method the interface catalog lists for it,
and each operation denotes exactly one `requestJson` call, which performs
exactly one fetch - no retries, pagination or caching. -/
theorem api_catalog (stringify : JsValue → String) (enc : String → String)
    (id challengeId testCaseId templateId submissionId username : String)
    (payload : JsValue) :
    (api_register payload).1 = "/register" ∧
    ApiCall.effMethod (api_register payload) = "POST" ∧
    (api_login payload).1 = "/login" ∧
    ApiCall.effMethod (api_login payload) = "POST" ∧
    api_getChallenges.1 = "/challenges" ∧
    ApiCall.effMethod api_getChallenges = "GET" ∧
    (api_getChallenge id).1 = "/challenges/" ++ id ∧
    ApiCall.effMethod (api_getChallenge id) = "GET" ∧
    (api_addChallenge payload).1 = "/add_challenge" ∧
    ApiCall.effMethod (api_addChallenge payload) = "POST" ∧
    (api_updateChallenge id payload).1 = "/challenges/" ++ id ∧
    ApiCall.effMethod (api_updateChallenge id payload) = "PUT" ∧
    (api_deleteChallenge id payload).1 = "/challenges/" ++ id ∧
    ApiCall.effMethod (api_deleteChallenge id payload) = "DELETE" ∧
    (api_submit payload).1 = "/submit" ∧
    ApiCall.effMethod (api_submit payload) = "POST" ∧
    (api_getSubmissions enc username).1 = "/submissions/" ++ enc username ∧
    ApiCall.effMethod (api_getSubmissions enc username) = "GET" ∧
    (api_teacherListSubmissions payload).1 = "/teacher/submissions" ∧
    ApiCall.effMethod (api_teacherListSubmissions payload) = "POST" ∧
    (api_teacherUpdateSubmission enc submissionId payload).1 =
      "/teacher/submissions/" ++ enc submissionId ∧
    ApiCall.effMethod (api_teacherUpdateSubmission enc submissionId payload) =
      "PUT" ∧
    (api_addTestCase challengeId payload).1 =
      "/challenges/" ++ challengeId ++ "/add_test_case" ∧
    ApiCall.effMethod (api_addTestCase challengeId payload) = "POST" ∧
    (api_deleteTestCase testCaseId payload).1 = "/test_cases/" ++ testCaseId ∧
    ApiCall.effMethod (api_deleteTestCase testCaseId payload) = "DELETE" ∧
    (api_addSolutionTemplate challengeId payload).1 =
      "/challenges/" ++ challengeId ++ "/add_solution_template" ∧
    ApiCall.effMethod (api_addSolutionTemplate challengeId payload) = "POST" ∧
    (api_deleteSolutionTemplate templateId payload).1 =
      "/solution_templates/" ++ templateId ∧
    ApiCall.effMethod (api_deleteSolutionTemplate templateId payload) =
      "DELETE" ∧
    (api_exportChallenge challengeId).1 =
      "/challenges/" ++ challengeId ++ "/export" ∧
    ApiCall.effMethod (api_exportChallenge challengeId) = "GET" ∧
    (api_copyChallenge challengeId payload).1 =
      "/challenges/" ++ challengeId ++ "/copy" ∧
    ApiCall.effMethod (api_copyChallenge challengeId payload) = "POST" ∧
    (api_importChallenge payload).1 = "/import_challenge" ∧
    ApiCall.effMethod (api_importChallenge payload) = "POST" ∧
    (∀ c : ApiCall, (requestJsonFetch stringify c.1 c.2).url = c.1 ∧
      (requestJsonFetch stringify c.1 c.2).method = ApiCall.effMethod c) ∧
    (∀ c : ApiCall, (requestJsonRequests stringify c.1 c.2).length = 1) :=
  ⟨rfl, rfl, rfl, rfl, rfl, rfl, rfl, rfl, rfl, rfl, rfl, rfl, rfl, rfl,
   rfl, rfl, rfl, rfl, rfl, rfl, rfl, rfl, rfl, rfl, rfl, rfl, rfl, rfl,
   rfl, rfl, rfl, rfl, rfl, rfl, rfl, rfl,
   fun _ => ⟨rfl, rfl⟩, fun _ => rfl⟩

/-- Single-character replacement distributes over append. -/
lemma replaceAllChar_append (pat : Char) (rep : List Char) (a b : List Char) :
    replaceAllChar pat rep (a ++ b) =
      replaceAllChar pat rep a ++ replaceAllChar pat rep b := by
  induction a with
  | nil => rfl
  | cons c rest ih => simp [replaceAllChar, ih, List.append_assoc]

/-- The five escaping passes on a single character produce its block. -/
lemma escapeHtml_single (c : Char) : escapeHtml [c] = escCharBlock c := by
  unfold escCharBlock
  by_cases h1 : c = '&'
  · subst h1
    rfl
  rw [if_neg h1]
  by_cases h2 : c = '<'
  · subst h2
    rfl
  rw [if_neg h2]
  by_cases h3 : c = '>'
  · subst h3
    rfl
  rw [if_neg h3]
  by_cases h4 : c = dquote
  · subst h4
    rfl
  rw [if_neg h4]
  by_cases h5 : c = squote
  · subst h5
    rfl
  rw [if_neg h5]
  simp [escapeHtml, replaceAllChar, h1, h2, h3, h4, h5]

/-- The output of `escapeHtml` is the concatenation of the per-character
blocks. -/
lemma escapeHtml_cons (c : Char) (cs : List Char) :
    escapeHtml (c :: cs) = escCharBlock c ++ escapeHtml cs := by
  rw [← escapeHtml_single c]
  show escapeHtml ([c] ++ cs) = escapeHtml [c] ++ escapeHtml cs
  unfold escapeHtml
  rw [replaceAllChar_append, replaceAllChar_append, replaceAllChar_append,
    replaceAllChar_append, replaceAllChar_append]

/-- No character block contains an angle bracket or a quote. -/
lemma escCharBlock_safe (c : Char) :
    ∀ c' ∈ escCharBlock c,
      c' ≠ '<' ∧ c' ≠ '>' ∧ c' ≠ dquote ∧ c' ≠ squote := by
  intro c' hm
  unfold escCharBlock at hm
  by_cases h1 : c = '&'
  · rw [if_pos h1] at hm
    simp only [ampEntity, List.mem_cons, List.not_mem_nil, or_false] at hm
    rcases hm with rfl | rfl | rfl | rfl | rfl <;> decide
  rw [if_neg h1] at hm
  by_cases h2 : c = '<'
  · rw [if_pos h2] at hm
    simp only [ltEntity, List.mem_cons, List.not_mem_nil, or_false] at hm
    rcases hm with rfl | rfl | rfl | rfl <;> decide
  rw [if_neg h2] at hm
  by_cases h3 : c = '>'
  · rw [if_pos h3] at hm
    simp only [gtEntity, List.mem_cons, List.not_mem_nil, or_false] at hm
    rcases hm with rfl | rfl | rfl | rfl <;> decide
  rw [if_neg h3] at hm
  by_cases h4 : c = dquote
  · rw [if_pos h4] at hm
    simp only [quotEntity, List.mem_cons, List.not_mem_nil, or_false] at hm
    rcases hm with rfl | rfl | rfl | rfl | rfl | rfl <;> decide
  rw [if_neg h4] at hm
  by_cases h5 : c = squote
  · rw [if_pos h5] at hm
    simp only [aposEntity, List.mem_cons, List.not_mem_nil, or_false] at hm
    rcases hm with rfl | rfl | rfl | rfl | rfl | rfl <;> decide
  rw [if_neg h5] at hm
  simp only [List.mem_cons, List.not_mem_nil, or_false] at hm
  subst hm
  exact ⟨h2, h3, h4, h5⟩

/-- A successful indexed access lands on a member of the list. -/
lemma mem_of_getElem? {α : Type} {l : List α} {i : Nat} {a : α}
    (h : l[i]? = some a) : a ∈ l := by
  obtain ⟨hlt, he⟩ := List.getElem?_eq_some.mp h
  exact he ▸ List.getElem_mem hlt

/-- In a list starting with an ampersand whose tail has none, the
ampersand occurs only at position zero. -/
lemma amp_head_only (rest : List Char) (i : Nat) (hr : '&' ∉ rest)
    (h : (('&' :: rest) : List Char)[i]? = some '&') : i = 0 := by
  cases i with
  | zero => rfl
  | succ j =>
    have h' : rest[j]? = some '&' := by
      rw [List.getElem?_cons_succ] at h
      exact h
    exact absurd (mem_of_getElem? h') hr

/-- An ampersand inside a character block sits at its head, and such a
block is one of the five entities. -/
lemma escCharBlock_amp (c : Char) (i : Nat)
    (h : (escCharBlock c)[i]? = some '&') :
    i = 0 ∧ escCharBlock c ∈ entityBlocks := by
  unfold escCharBlock at h ⊢
  by_cases h1 : c = '&'
  · rw [if_pos h1] at h ⊢
    exact ⟨amp_head_only ['a', 'm', 'p', ';'] i (by decide) h, by decide⟩
  rw [if_neg h1] at h ⊢
  by_cases h2 : c = '<'
  · rw [if_pos h2] at h ⊢
    exact ⟨amp_head_only ['l', 't', ';'] i (by decide) h, by decide⟩
  rw [if_neg h2] at h ⊢
  by_cases h3 : c = '>'
  · rw [if_pos h3] at h ⊢
    exact ⟨amp_head_only ['g', 't', ';'] i (by decide) h, by decide⟩
  rw [if_neg h3] at h ⊢
  by_cases h4 : c = dquote
  · rw [if_pos h4] at h ⊢
    exact ⟨amp_head_only ['q', 'u', 'o', 't', ';'] i (by decide) h, by decide⟩
  rw [if_neg h4] at h ⊢
  by_cases h5 : c = squote
  · rw [if_pos h5] at h ⊢
    exact ⟨amp_head_only ['#', '0', '3', '9', ';'] i (by decide) h, by decide⟩
  rw [if_neg h5] at h ⊢
  cases i with
  | zero =>
    have hc : c = '&' := Option.some.inj h
    exact absurd hc h1
  | succ j => exact Option.noConfusion h

/-- Part one of claim C9: the output of `escapeHtml` never contains an
angle bracket or a quote character. -/
lemma escapeHtml_no_specials (s : List Char) :
    ∀ c' ∈ escapeHtml s,
      c' ≠ '<' ∧ c' ≠ '>' ∧ c' ≠ dquote ∧ c' ≠ squote := by
  induction s with
  | nil => intro c' hm; exact absurd hm (List.not_mem_nil c')
  | cons c cs ih =>
    intro c' hm
    rw [escapeHtml_cons] at hm
    rcases List.mem_append.mp hm with h | h
    · exact escCharBlock_safe c c' h
    · exact ih c' h

/-- Part two of claim C9: every ampersand in the output of `escapeHtml`
starts one of the five entities. -/
lemma escapeHtml_amp_entity (s : List Char) :
    ∀ i, (escapeHtml s)[i]? = some '&' →
      ∃ e ∈ entityBlocks, ((escapeHtml s).drop i).take e.length = e := by
  induction s with
  | nil =>
    intro i h
    rw [show escapeHtml [] = ([] : List Char) from rfl] at h
    simp at h
  | cons c cs ih =>
    intro i h
    rw [escapeHtml_cons] at h ⊢
    rcases Nat.lt_or_ge i (escCharBlock c).length with hlt | hge
    · rw [List.getElem?_append_left hlt] at h
      obtain ⟨hi0, hmem⟩ := escCharBlock_amp c i h
      subst hi0
      refine ⟨escCharBlock c, hmem, ?_⟩
      rw [List.drop_zero, List.take_left]
    · obtain ⟨j, rfl⟩ : ∃ j, i = (escCharBlock c).length + j :=
        ⟨i - (escCharBlock c).length, by omega⟩
      rw [List.getElem?_append_right hge, Nat.add_sub_cancel_left] at h
      obtain ⟨e, he, heq⟩ := ih j h
      refine ⟨e, he, ?_⟩
      rw [List.drop_append]
      exact heq

/-- Claim C9: for every input, the output of `escapeHtml` contains no
`<`, `>`, double-quote or single-quote character, and every ampersand in
the output starts one of the entities `&amp;`, `&lt;`, `&gt;`, `&quot;`
or `&#039;` produced by the escaping. -/
theorem escapeHtml_output_safe (s : List Char) :
    (∀ c ∈ escapeHtml s,
      c ≠ '<' ∧ c ≠ '>' ∧ c ≠ dquote ∧ c ≠ squote) ∧
    (∀ i, (escapeHtml s)[i]? = some '&' →
      ∃ e ∈ entityBlocks, ((escapeHtml s).drop i).take e.length = e) :=
  ⟨escapeHtml_no_specials s, escapeHtml_amp_entity s⟩

/-- Witness for claim C9: escaping the one-character input `<` yields an
ampersand that starts an entity and is itself none of the four dangerous
characters. -/
theorem escapeHtml_output_safe_witness :
    (('&' : Char) ≠ '<' ∧ ('&' : Char) ≠ '>' ∧ ('&' : Char) ≠ dquote ∧
      ('&' : Char) ≠ squote) ∧
    (∃ e ∈ entityBlocks, ((escapeHtml ['<']).drop 0).take e.length = e) :=
  ⟨(escapeHtml_output_safe ['<']).1 '&' (by decide),
   (escapeHtml_output_safe ['<']).2 0 (by decide)⟩

end Alaa
